import Mathlib

/-!
Verification of the GST invoice tax and balance computation engine of the
ColSolTest repository, as implemented in Invoice.js (SaveInvoiceDet,
SaveInvoiceItem, GetInvoiceItemTaxDetails, SaveInvoiceTax) and
Adjustments.js (SaveAdjustment, DeleteAdjustment).

Modelling conventions: JS numbers are rationals, row ids are naturals,
state ids are integers, SQL tables are lists of structures, and the
single-row SQL lookups that the endpoints perform are passed in as
Option values (a present row) with the code itself supplying the
default (... rows.length ? rows[0].x : 0) on a missing row.
-/

namespace InvoiceEngine

/-- One row of the Invoice table restricted to the columns the balance
ledger touches: invid, total and amtdue. -/
structure InvoiceRow where
  invid : ℕ
  total : ℚ
  amtdue : ℚ
deriving DecidableEq

/-- One row of the InvoiceItem table restricted to the columns the tax
aggregation reads (invoiceid, amount, discount, cgstper, sgstper, igstper)
plus the itemid key. -/
structure ItemRow where
  invoiceid : ℕ
  itemid : ℕ
  amount : ℚ
  discount : ℚ
  cgstper : ℚ
  sgstper : ℚ
  igstper : ℚ
deriving DecidableEq

/-- One row of the InvoiceTax table: invid, sr (serial), percentage and the
three tax components. -/
structure InvoiceTaxRow where
  invid : ℕ
  sr : ℕ
  percentage : ℚ
  cgst : ℚ
  sgst : ℚ
  igst : ℚ
deriving DecidableEq

/-- One row of the Adjustment table: invid, payid, adjustamt. -/
structure AdjRow where
  invid : ℕ
  payid : ℕ
  adjustamt : ℚ
deriving DecidableEq

/-- The relational state that the modelled endpoints read and write. -/
structure DBState where
  invoices : List InvoiceRow
  items : List ItemRow
  taxes : List InvoiceTaxRow
  adjustments : List AdjRow
deriving DecidableEq

/-! ## Line-item tax calculator (Invoice.js lines 680-694 and 780-797) -/

/-- Invoice.js lines 680-689 (identical at 780-789): the regime split.
When the company stateid equals the customer placeofsupply the code sets
cgstper = sgstper = 0 and igstper = taxrate; otherwise it sets
cgstper = sgstper = taxrate / 2 and igstper = 0.
Returns (cgstper, sgstper, igstper). -/
def taxSplit (stateid placeofsupply : ℤ) (taxrate : ℚ) : ℚ × ℚ × ℚ :=
  if stateid = placeofsupply then (0, 0, taxrate)
  else (taxrate / 2, taxrate / 2, 0)

/-- The values SaveInvoiceItem computes and inserts into InvoiceItem
(Invoice.js lines 680-701): amount, the three split percentages, taxtotal
and total. -/
structure InvoiceItemCalc where
  amount : ℚ
  cgstper : ℚ
  sgstper : ℚ
  igstper : ℚ
  taxtotal : ℚ
  total : ℚ
deriving DecidableEq

/-- The arithmetic of SaveInvoiceItem (Invoice.js lines 680-694), written
exactly as in the source: taxtotal is one expression summing the three
component products, and total = amount - discount + taxtotal. -/
def saveInvoiceItemCalc (stateid placeofsupply : ℤ)
    (taxrate quantity rate discount : ℚ) : InvoiceItemCalc :=
  let per := taxSplit stateid placeofsupply taxrate
  let amount := quantity * rate
  let taxtotal := ((amount - discount) * (per.1 / 100))
    + (((quantity * rate) - discount) * (per.2.1 / 100))
    + (((quantity * rate) - discount) * (per.2.2 / 100))
  { amount := amount
    cgstper := per.1
    sgstper := per.2.1
    igstper := per.2.2
    taxtotal := taxtotal
    total := amount - discount + taxtotal }

/-- SaveInvoiceItem with the row lookups made explicit
(Invoice.js lines 648-677): a missing Items row defaults taxrate to 0, a
missing Company row defaults stateid to 0 and a missing Customer row
defaults placeofsupply to 0; the computation then proceeds unconditionally. -/
def saveInvoiceItemResolved (itemTaxrate : Option ℚ)
    (companyState customerPos : Option ℤ)
    (quantity rate discount : ℚ) : InvoiceItemCalc :=
  saveInvoiceItemCalc (companyState.getD 0) (customerPos.getD 0)
    (itemTaxrate.getD 0) quantity rate discount

/-- The JSON payload of GetInvoiceItemTaxDetails
(Invoice.js lines 792-799). -/
structure LineTax where
  rate : ℚ
  amount : ℚ
  cgst : ℚ
  sgst : ℚ
  igst : ℚ
  taxtotal : ℚ
  total : ℚ
deriving DecidableEq

/-- GetInvoiceItemTaxDetails (Invoice.js lines 750-799): the Items row
yields (sellprice, taxrate) with default (0, 0), the Company and Customer
rows yield stateid and placeofsupply with default 0, then the same regime
split is applied and the per-component amounts are computed. -/
def getInvoiceItemTaxDetails (itemRow : Option (ℚ × ℚ))
    (companyState customerPos : Option ℤ)
    (quantity discount : ℚ) : LineTax :=
  let rate := (itemRow.map Prod.fst).getD 0
  let taxrate := (itemRow.map Prod.snd).getD 0
  let stateid := companyState.getD 0
  let placeofsupply := customerPos.getD 0
  let per := taxSplit stateid placeofsupply taxrate
  let amount := quantity * rate
  let cgst := (amount - discount) * (per.1 / 100)
  let sgst := (amount - discount) * (per.2.1 / 100)
  let igst := (amount - discount) * (per.2.2 / 100)
  let taxtotal := cgst + sgst + igst
  { rate := rate
    amount := amount
    cgst := cgst
    sgst := sgst
    igst := igst
    taxtotal := taxtotal
    total := amount - discount + taxtotal }

/-! ## Invoice tax aggregator (Invoice.js lines 831-906, SaveInvoiceTax)

The SQL at lines 840-859 builds, per tax type, the set of
(percentage, amount - discount) pairs of the line items whose respective
percentage is positive (UNION, so duplicate pairs collapse), groups by
(percentage, taxtype) and values each group at
percentage/100 * AVG(total).  The JS at lines 862-874 then folds the
group rows into an object keyed by percentage, a later row overwriting an
earlier one with the same percentage. -/

/-- A group row produced by the SQL at Invoice.js lines 840-859: the
percentage together with the cgst/sgst/igst value of the CASE expressions
(exactly one of the three is the group value, the other two are 0). -/
structure TaxGroupRow where
  percentage : ℚ
  cgst : ℚ
  sgst : ℚ
  igst : ℚ
deriving DecidableEq

/-- One branch of the inner UNION: the (percentage, amount - discount)
pairs of the items with a positive selected percentage, duplicates
collapsed (SQL UNION is a set union). -/
def streamPairs (sel : ItemRow → ℚ) (items : List ItemRow) : List (ℚ × ℚ) :=
  ((items.filter (fun it => 0 < sel it)).map
    (fun it => (sel it, it.amount - it.discount))).dedup

/-- The totals of the pairs of one percentage group. -/
def groupValues (rows : List (ℚ × ℚ)) (p : ℚ) : List ℚ :=
  (rows.filter (fun r => r.1 = p)).map Prod.snd

/-- SQL AVG over a list (0 on the empty list, as 0 / 0 = 0 in ℚ). -/
def avgList (l : List ℚ) : ℚ := l.sum / l.length

/-- The distinct percentages of a stream, i.e. its GROUP BY keys. -/
def percentagesOf (rows : List (ℚ × ℚ)) : List ℚ :=
  (rows.map Prod.fst).dedup

/-- The group rows of one stream: for each distinct percentage p the value
p/100 * AVG(total) placed by mk into the right component. -/
def groupRowsOf (rows : List (ℚ × ℚ)) (mk : ℚ → ℚ → TaxGroupRow) :
    List TaxGroupRow :=
  (percentagesOf rows).map (fun p => mk p (p / 100 * avgList (groupValues rows p)))

/-- The CGST group rows of the SQL at Invoice.js lines 840-859. -/
def cgstGroupRows (items : List ItemRow) : List TaxGroupRow :=
  groupRowsOf (streamPairs (fun it => it.cgstper) items) (fun p v => ⟨p, v, 0, 0⟩)

/-- The SGST group rows of the SQL at Invoice.js lines 840-859. -/
def sgstGroupRows (items : List ItemRow) : List TaxGroupRow :=
  groupRowsOf (streamPairs (fun it => it.sgstper) items) (fun p v => ⟨p, 0, v, 0⟩)

/-- The IGST group rows of the SQL at Invoice.js lines 840-859. -/
def igstGroupRows (items : List ItemRow) : List TaxGroupRow :=
  groupRowsOf (streamPairs (fun it => it.igstper) items) (fun p v => ⟨p, 0, 0, v⟩)

/-- The full result set of the SQL at Invoice.js lines 840-859: one row per
(percentage, taxtype) group. -/
def sqlGroups (items : List ItemRow) : List TaxGroupRow :=
  cgstGroupRows items ++ sgstGroupRows items ++ igstGroupRows items

/-- One assignment groupedTaxData[percentage] = row of the JS loop at
Invoice.js lines 863-867: an existing entry with the same percentage is
replaced in place, otherwise the row is appended. -/
def upsert (acc : List TaxGroupRow) (row : TaxGroupRow) : List TaxGroupRow :=
  if (∃ r ∈ acc, r.percentage = row.percentage) then
    acc.map (fun r => if r.percentage = row.percentage then row else r)
  else acc ++ [row]

/-- The whole JS merge loop at Invoice.js lines 862-874: fold the SQL group
rows into an object keyed by percentage and read its values back. -/
def mergeByPercentage (rows : List TaxGroupRow) : List TaxGroupRow :=
  rows.foldl upsert []

/-- The rows SaveInvoiceTax inserts for a set of line items of one invoice
(before serial assignment). -/
def taxRows (items : List ItemRow) : List TaxGroupRow :=
  mergeByPercentage (sqlGroups items)

/-- The existing serials of one invoice in the InvoiceTax table
(Invoice.js lines 881-885). -/
def existingSerials (db : DBState) (i : ℕ) : List ℕ :=
  (db.taxes.filter (fun t => t.invid = i)).map (fun t => t.sr)

/-- COALESCE(MAX(sr), 0) + 1 over the InvoiceTax rows of one invoice
(Invoice.js lines 881-887). -/
def nextSerial (db : DBState) (i : ℕ) : ℕ :=
  (existingSerials db i).foldr max 0 + 1

/-- The insert loop of Invoice.js lines 895-899: row number index gets
serial next + index, rendered as a recursion carrying the running serial. -/
def invoiceTaxInsert (i next : ℕ) : List TaxGroupRow → List InvoiceTaxRow
  | [] => []
  | r :: rs =>
    ⟨i, next, r.percentage, r.cgst, r.sgst, r.igst⟩ :: invoiceTaxInsert i (next + 1) rs

/-- The whole SaveInvoiceTax endpoint (Invoice.js lines 831-906): no rows
means a 400 response and no write; otherwise the merged rows are appended
to InvoiceTax with serials starting at nextSerial. -/
def saveInvoiceTax (db : DBState) (i : ℕ) : DBState :=
  let rows := taxRows (db.items.filter (fun it => it.invoiceid = i))
  if rows = [] then db
  else { db with taxes := db.taxes ++ invoiceTaxInsert i (nextSerial db i) rows }

/-! ## Balance ledger (Adjustments.js) and invoice header writes -/

/-- SUM(adjustamt) over the Adjustment rows of one invoice
(the subquery of Adjustments.js lines 107-114). -/
def sumAdj (adjs : List AdjRow) (i : ℕ) : ℚ :=
  ((adjs.filter (fun a => a.invid = i)).map (fun a => a.adjustamt)).sum

/-- The UPDATE of Adjustments.js lines 107-117 run on its own: set the
amtdue of invoice i to total minus the full sum of its adjustment rows. -/
def recomputeDue (db : DBState) (i : ℕ) : DBState :=
  { db with
    invoices := db.invoices.map (fun inv =>
      if inv.invid = i then { inv with amtdue := inv.total - sumAdj db.adjustments i }
      else inv) }

/-- SaveAdjustment (Adjustments.js lines 90-125): append the adjustment
row, then run the amtdue recomputation for that invoice. -/
def saveAdjustment (db : DBState) (i p : ℕ) (amt : ℚ) : DBState :=
  recomputeDue { db with adjustments := db.adjustments ++ [⟨i, p, amt⟩] } i

/-- DeleteAdjustment (Adjustments.js lines 38-55): delete every Adjustment
row of one payment; nothing else is touched. -/
def deleteAdjustment (db : DBState) (p : ℕ) : DBState :=
  { db with adjustments := db.adjustments.filter (fun a => ¬ a.payid = p) }

/-- SaveInvoiceDet (Invoice.js lines 451-590) restricted to the modelled
columns: invid1 = invid ? invid : 0; when invid1 > 0 the header row is
updated (total among the SET columns, amtdue not among them) and then all
InvoiceItem and InvoiceTax rows of that invoice are deleted; otherwise a
fresh row is inserted with amtdue = total (the INSERT reuses parameter
number 18 for both columns) and nothing is deleted. -/
def saveInvoiceDet (db : DBState) (invid : Option ℕ) (newId : ℕ)
    (total : ℚ) : DBState :=
  let invid1 := invid.getD 0
  if 0 < invid1 then
    { db with
      invoices := db.invoices.map (fun inv =>
        if inv.invid = invid1 then { inv with total := total } else inv)
      items := db.items.filter (fun it => ¬ it.invoiceid = invid1)
      taxes := db.taxes.filter (fun t => ¬ t.invid = invid1) }
  else
    { db with invoices := db.invoices ++ [{ invid := newId, total := total, amtdue := total }] }

/-- The ledger invariant of the spec: every invoice amtdue is derivable by
full summation from the Adjustment rows. -/
def dueInvariant (db : DBState) : Prop :=
  ∀ inv ∈ db.invoices, inv.amtdue = inv.total - sumAdj db.adjustments inv.invid

/-- Modelled from the spec for C5 only (spec section 4.2 step 2 wording):
the value attributed to a percentage group as percentage/100 times the
average of the taxable bases across ALL of the group line items, with no
collapsing of duplicate bases. Used to compare against the source, which
feeds AVG from a UNION and therefore averages distinct bases. -/
def specGroupValue (sel : ItemRow → ℚ) (items : List ItemRow) (p : ℚ) : ℚ :=
  p / 100 * avgList
    (((items.filter (fun it => 0 < sel it)).filter (fun it => sel it = p)).map
      (fun it => it.amount - it.discount))

/-- The percentage keys of a list of group rows. -/
def rowPercentages (rows : List TaxGroupRow) : List ℚ :=
  rows.map (fun r => r.percentage)

/-- A single line item whose cgstper and sgstper are both 9 (the shape the
code produces in its split branch with taxrate 18). -/
def itemsBothComponents : List ItemRow := [⟨1, 1, 100, 0, 9, 9, 0⟩]

/-- Three line items in the same 10 percent CGST bracket, two of them with
the same taxable base 100 and one with base 400. -/
def itemsRepeatedBase : List ItemRow :=
  [⟨1, 1, 100, 0, 10, 0, 0⟩, ⟨1, 2, 100, 0, 10, 0, 0⟩, ⟨1, 3, 400, 0, 10, 0, 0⟩]

/-- An empty database. -/
def dbEmpty : DBState := ⟨[], [], [], []⟩

/-- A database with one invoice of total 1180 and amtdue 680 and a single
adjustment of 500 by payment 42 against it. -/
def dbOnePayment : DBState := ⟨[⟨1, 1180, 680⟩], [], [], [⟨1, 42, 500⟩]⟩

/-- A database with one invoice, line items of two invoices and one
InvoiceTax row of invoice 1. -/
def dbTwoInvoices : DBState :=
  ⟨[⟨1, 100, 100⟩], [⟨1, 5, 100, 0, 9, 9, 0⟩, ⟨2, 6, 50, 0, 0, 0, 18⟩],
    [⟨1, 1, 9, 9, 9, 0⟩], []⟩

/-- A database whose InvoiceTax table already holds serials 1 and 2 for
invoice 1. -/
def dbTwoSerials : DBState :=
  ⟨[], [], [⟨1, 1, 9, 9, 0, 0⟩, ⟨1, 2, 9, 0, 9, 0⟩], []⟩

/-! ## Theorems -/

/-! ### Lemmas on the merge-by-percentage fold -/

theorem mem_upsert {acc : List TaxGroupRow} {row r : TaxGroupRow}
    (h : r ∈ upsert acc row) : r ∈ acc ∨ r = row := by
  unfold upsert at h
  split at h
  · obtain ⟨x, hx, hxr⟩ := List.mem_map.1 h
    by_cases hxp : x.percentage = row.percentage
    · right; rw [if_pos hxp] at hxr; exact hxr.symm
    · left; rw [if_neg hxp] at hxr; exact hxr ▸ hx
  · rcases List.mem_append.1 h with h1 | h1
    · exact Or.inl h1
    · right; simpa using h1

theorem rowPercentages_upsert (acc : List TaxGroupRow) (row : TaxGroupRow) :
    rowPercentages (upsert acc row)
      = if row.percentage ∈ rowPercentages acc then rowPercentages acc
        else rowPercentages acc ++ [row.percentage] := by
  have hmem : row.percentage ∈ rowPercentages acc
      ↔ ∃ r ∈ acc, r.percentage = row.percentage := by
    simp [rowPercentages]
  by_cases h : ∃ r ∈ acc, r.percentage = row.percentage
  · rw [upsert, if_pos h, if_pos (hmem.2 h)]
    unfold rowPercentages
    rw [List.map_map]
    apply List.map_congr_left
    intro r _
    by_cases hp : r.percentage = row.percentage <;> simp [hp]
  · rw [upsert, if_neg h, if_neg (fun hc => h (hmem.1 hc))]
    simp [rowPercentages]

theorem foldl_upsert_mem (rows : List TaxGroupRow) :
    ∀ acc r, r ∈ rows.foldl upsert acc → r ∈ acc ∨ r ∈ rows := by
  induction rows with
  | nil => intro acc r h; exact Or.inl (by simpa using h)
  | cons row rows ih =>
    intro acc r h
    rw [List.foldl_cons] at h
    rcases ih (upsert acc row) r h with h1 | h1
    · rcases mem_upsert h1 with h2 | h2
      · exact Or.inl h2
      · exact Or.inr (by simp [h2])
    · exact Or.inr (List.mem_cons_of_mem _ h1)

theorem foldl_upsert_keys_sub (rows : List TaxGroupRow) :
    ∀ acc p, p ∈ rowPercentages acc → p ∈ rowPercentages (rows.foldl upsert acc) := by
  induction rows with
  | nil => intro acc p h; simpa using h
  | cons row rows ih =>
    intro acc p h
    rw [List.foldl_cons]
    apply ih
    by_cases hc : row.percentage ∈ rowPercentages acc
    · rw [rowPercentages_upsert, if_pos hc]; exact h
    · rw [rowPercentages_upsert, if_neg hc]; exact List.mem_append_left _ h

theorem foldl_upsert_keys_cover (rows : List TaxGroupRow) :
    ∀ acc g, g ∈ rows → g.percentage ∈ rowPercentages (rows.foldl upsert acc) := by
  induction rows with
  | nil => intro acc g h; simp at h
  | cons row rows ih =>
    intro acc g h
    rw [List.foldl_cons]
    rcases List.mem_cons.1 h with h1 | h1
    · subst h1
      apply foldl_upsert_keys_sub
      by_cases hc : g.percentage ∈ rowPercentages acc
      · rw [rowPercentages_upsert, if_pos hc]; exact hc
      · rw [rowPercentages_upsert, if_neg hc]; simp
    · exact ih _ g h1

theorem foldl_upsert_keys_nodup (rows : List TaxGroupRow) :
    ∀ acc, (rowPercentages acc).Nodup → (rowPercentages (rows.foldl upsert acc)).Nodup := by
  induction rows with
  | nil => intro acc h; simpa using h
  | cons row rows ih =>
    intro acc h
    rw [List.foldl_cons]
    apply ih
    by_cases hc : row.percentage ∈ rowPercentages acc
    · rw [rowPercentages_upsert, if_pos hc]; exact h
    · rw [rowPercentages_upsert, if_neg hc]
      rw [List.nodup_append]
      exact ⟨h, List.nodup_singleton _, by simpa using hc⟩

/-- C2 counterexample: on a single line item with cgstper = sgstper = 9 the
SQL produces both a CGST group row of value 9 and an SGST group row of
value 9 at percentage 9, but the JS merge keyed by percentage keeps only
one of them, emitting the row (9, cgst 0, sgst 9, igst 0): the applicable
CGST component is dropped, contradicting the claim that the merged row
carries every applicable component. -/
theorem C2_counterexample :
    taxRows itemsBothComponents = [⟨9, 0, 9, 0⟩] ∧
    (⟨9, 9, 0, 0⟩ : TaxGroupRow) ∈ sqlGroups itemsBothComponents ∧
    ¬ (∀ r ∈ taxRows itemsBothComponents, ∀ g ∈ sqlGroups itemsBothComponents,
        g.percentage = r.percentage → (g.cgst ≠ 0 → r.cgst = g.cgst)) := by
  have h2 : sqlGroups itemsBothComponents = [⟨9, 9, 0, 0⟩, ⟨9, 0, 9, 0⟩] := by
    norm_num [sqlGroups, cgstGroupRows, sgstGroupRows, igstGroupRows, groupRowsOf,
      percentagesOf, streamPairs, groupValues, avgList, itemsBothComponents,
      List.filter_cons, List.dedup]
  have h1 : taxRows itemsBothComponents = [⟨9, 0, 9, 0⟩] := by
    rw [taxRows, h2]
    norm_num [mergeByPercentage, upsert]
  refine ⟨h1, by rw [h2]; simp, ?_⟩
  intro hall
  have hc := hall ⟨9, 0, 9, 0⟩ (by rw [h1]; simp) ⟨9, 9, 0, 0⟩ (by rw [h2]; simp)
    rfl (by norm_num)
  norm_num at hc

/-- C2 amended: the aggregation emits exactly one row per distinct
percentage (the emitted percentages are pairwise distinct and cover every
SQL group), but each emitted row is just ONE of the per-(percentage,
taxtype) SQL group rows with that percentage — the one written last —
so the other applicable components at that percentage are dropped, not
carried. -/
theorem C2_amended (items : List ItemRow) :
    (rowPercentages (taxRows items)).Nodup ∧
    (∀ r ∈ taxRows items, r ∈ sqlGroups items) ∧
    (∀ g ∈ sqlGroups items, ∃ r ∈ taxRows items, r.percentage = g.percentage) := by
  refine ⟨?_, ?_, ?_⟩
  · exact foldl_upsert_keys_nodup (sqlGroups items) [] (by simp [rowPercentages])
  · intro r hr
    rcases foldl_upsert_mem (sqlGroups items) [] r hr with h | h
    · simp at h
    · exact h
  · intro g hg
    have hk := foldl_upsert_keys_cover (sqlGroups items) [] g hg
    obtain ⟨r, hr, hrp⟩ := List.mem_map.1 hk
    exact ⟨r, hr, hrp⟩

/-- Witness for C2 amended at the single-item example. -/
theorem C2_amended_witness :
    (rowPercentages (taxRows itemsBothComponents)).Nodup ∧
    (⟨9, 0, 9, 0⟩ : TaxGroupRow) ∈ sqlGroups itemsBothComponents := by
  obtain ⟨h1, h2, _⟩ := C2_amended itemsBothComponents
  refine ⟨h1, h2 ⟨9, 0, 9, 0⟩ ?_⟩
  norm_num [taxRows, sqlGroups, cgstGroupRows, sgstGroupRows, igstGroupRows,
    groupRowsOf, percentagesOf, streamPairs, groupValues, avgList,
    itemsBothComponents, List.filter_cons, List.dedup, mergeByPercentage, upsert]

/-- C1: the claim says equal seller state and place of supply gives the
intra-state split cgstPercent = sgstPercent = taxRatePercent / 2 with
igstPercent = 0, and unequal states give igstPercent = taxRatePercent.
The code has the two branches swapped: at stateid = placeofsupply = 7 and
taxrate = 18 it yields (cgstper, sgstper, igstper) = (0, 0, 18), and at
stateid = 7, placeofsupply = 12 it yields (9, 9, 0). -/
theorem C1_regime_swapped :
    taxSplit 7 7 18 = (0, 0, 18) ∧
    taxSplit 7 12 18 = (9, 9, 0) ∧
    ¬ taxSplit 7 7 18 = (9, 9, 0) ∧
    ¬ taxSplit 7 12 18 = (0, 0, 18) := by
  refine ⟨by decide, ?_, by decide, ?_⟩ <;>
    norm_num [taxSplit, Prod.ext_iff]

/-- C3: the claim says an unresolved seller state or place of supply must
fail fast with a MissingLocationError.  The code instead defaults each
missing id to 0 and classifies anyway: with no Company row and no Customer
row (both ids default to 0, hence equal) SaveInvoiceItem computes a full
result with taxtotal = 36 on taxrate 18, quantity 2, rate 100, discount 0,
and with only the Company row missing the defaulted stateid 0 is compared
against the real place of supply. -/
theorem C3_missing_location_defaults :
    saveInvoiceItemResolved (some 18) none none 2 100 0
      = saveInvoiceItemCalc 0 0 18 2 100 0 ∧
    (saveInvoiceItemResolved (some 18) none none 2 100 0).taxtotal = 36 ∧
    (saveInvoiceItemResolved (some 18) none none 2 100 0).igstper = 18 ∧
    getInvoiceItemTaxDetails (some (100, 18)) none (some 7) 2 0
      = getInvoiceItemTaxDetails (some (100, 18)) (some 0) (some 7) 2 0 := by
  refine ⟨rfl, ?_, ?_, rfl⟩ <;>
    norm_num [saveInvoiceItemResolved, saveInvoiceItemCalc, taxSplit]

/-! ### Lemmas on the percentage-group averages -/

theorem dedup_filter_comm {α : Type} [DecidableEq α] (q : α → Bool) (l : List α) :
    l.dedup.filter q = (l.filter q).dedup := by
  induction l with
  | nil => rfl
  | cons a l ih =>
    by_cases hm : a ∈ l
    · rw [List.dedup_cons_of_mem hm]
      cases hq : q a
      · rw [List.filter_cons_of_neg (by simp [hq])]
        exact ih
      · rw [List.filter_cons_of_pos (by simp [hq]),
          List.dedup_cons_of_mem (List.mem_filter.2 ⟨hm, hq⟩)]
        exact ih
    · rw [List.dedup_cons_of_not_mem hm]
      cases hq : q a
      · rw [List.filter_cons_of_neg (by simp [hq]),
          List.filter_cons_of_neg (by simp [hq])]
        exact ih
      · rw [List.filter_cons_of_pos (by simp [hq]),
          List.filter_cons_of_pos (by simp [hq]),
          List.dedup_cons_of_not_mem (fun hc => hm (List.mem_filter.1 hc).1), ih]

theorem map_filter_comm {α β : Type} (f : α → β) (q : β → Bool) (l : List α) :
    (l.map f).filter q = (l.filter (fun x => q (f x))).map f := by
  induction l with
  | nil => rfl
  | cons a l ih => cases hq : q (f a) <;> simp [List.filter_cons, hq, ih]

/-- The totals AVG sees for one percentage group of one stream are exactly
the DEDUPLICATED taxable bases of the line items of that group: the SQL
UNION collapses equal (percentage, base) pairs before the GROUP BY. -/
theorem groupValues_streamPairs (sel : ItemRow → ℚ) (items : List ItemRow) (p : ℚ) :
    groupValues (streamPairs sel items) p
      = (((items.filter (fun it => 0 < sel it)).filter (fun it => sel it = p)).map
          (fun it => it.amount - it.discount)).dedup := by
  unfold groupValues streamPairs
  rw [dedup_filter_comm, map_filter_comm]
  have hinner : (items.filter (fun it => 0 < sel it)).filter
        (fun it => decide ((sel it, it.amount - it.discount).1 = p))
      = (items.filter (fun it => 0 < sel it)).filter (fun it => sel it = p) := by
    rfl
  rw [hinner]
  set inner := (items.filter (fun it => 0 < sel it)).filter (fun it => sel it = p) with hdef
  have hcongr : inner.map (fun it => (sel it, it.amount - it.discount))
      = inner.map (fun it => (p, it.amount - it.discount)) := by
    apply List.map_congr_left
    intro it hit
    have hp : sel it = p := by
      have := (List.mem_filter.1 hit).2
      simpa using this
    rw [hp]
  rw [hcongr]
  have hmm : inner.map (fun it => (p, it.amount - it.discount))
      = (inner.map (fun it => it.amount - it.discount)).map (fun b => (p, b)) := by
    rw [List.map_map]; rfl
  rw [hmm, List.dedup_map_of_injective (fun b c h => by simpa using h),
    List.map_map]
  have : (Prod.snd ∘ fun b : ℚ => ((p, b) : ℚ × ℚ)) = id := rfl
  rw [this, List.map_id]

/-- C5 counterexample: three line items in the 10 percent CGST bracket with
taxable bases 100, 100 and 400.  The claim computes 10/100 times the
average of the three bases, 20; the code feeds AVG from a UNION, so the
duplicate base 100 collapses and it computes 10/100 * (100 + 400)/2 = 25. -/
theorem C5_counterexample :
    cgstGroupRows itemsRepeatedBase = [⟨10, 25, 0, 0⟩] ∧
    specGroupValue (fun it => it.cgstper) itemsRepeatedBase 10 = 20 ∧
    ¬ (∀ g ∈ cgstGroupRows itemsRepeatedBase,
        g.cgst = specGroupValue (fun it => it.cgstper) itemsRepeatedBase g.percentage) := by
  have h1 : cgstGroupRows itemsRepeatedBase = [⟨10, 25, 0, 0⟩] := by
    norm_num [cgstGroupRows, groupRowsOf, percentagesOf, streamPairs, groupValues,
      avgList, itemsRepeatedBase, List.filter_cons, List.dedup, Prod.ext_iff]
  have h2 : specGroupValue (fun it => it.cgstper) itemsRepeatedBase 10 = 20 := by
    norm_num [specGroupValue, avgList, itemsRepeatedBase, List.filter_cons]
  refine ⟨h1, h2, ?_⟩
  intro hall
  have hc := hall ⟨10, 25, 0, 0⟩ (by rw [h1]; simp)
  rw [show (⟨10, 25, 0, 0⟩ : TaxGroupRow).percentage = 10 from rfl, h2] at hc
  norm_num at hc

/-- C5 amended: the value a percentage group carries is percentage/100
times the average of the DISTINCT taxable bases (amount - discount) of the
group line items — the UNION collapses duplicate bases before AVG — which
still coincides with that line tax for a single-line group. -/
theorem C5_amended (items : List ItemRow) :
    (∀ g ∈ cgstGroupRows items,
      g.cgst = g.percentage / 100 * avgList
        ((((items.filter (fun it => 0 < it.cgstper)).filter
            (fun it => it.cgstper = g.percentage)).map
          (fun it => it.amount - it.discount)).dedup)) ∧
    (∀ g ∈ sgstGroupRows items,
      g.sgst = g.percentage / 100 * avgList
        ((((items.filter (fun it => 0 < it.sgstper)).filter
            (fun it => it.sgstper = g.percentage)).map
          (fun it => it.amount - it.discount)).dedup)) ∧
    (∀ g ∈ igstGroupRows items,
      g.igst = g.percentage / 100 * avgList
        ((((items.filter (fun it => 0 < it.igstper)).filter
            (fun it => it.igstper = g.percentage)).map
          (fun it => it.amount - it.discount)).dedup)) := by
  refine ⟨?_, ?_, ?_⟩ <;> intro g hg <;>
    obtain ⟨p, hp, rfl⟩ := List.mem_map.1 hg <;>
    simpa using congrArg (fun l => p / 100 * avgList l)
      (groupValues_streamPairs _ items p)

/-- Witness for C5 amended at the repeated-base example: the group value 25
equals 10/100 times the average of the deduplicated bases. -/
theorem C5_amended_witness :
    (25 : ℚ) = 10 / 100 * avgList
      ((((itemsRepeatedBase.filter (fun it => 0 < it.cgstper)).filter
          (fun it => it.cgstper = 10)).map
        (fun it => it.amount - it.discount)).dedup) := by
  have hm : (⟨10, 25, 0, 0⟩ : TaxGroupRow) ∈ cgstGroupRows itemsRepeatedBase := by
    norm_num [cgstGroupRows, groupRowsOf, percentagesOf, streamPairs, groupValues,
      avgList, itemsRepeatedBase, List.filter_cons, List.dedup, Prod.ext_iff]
  simpa using (C5_amended itemsRepeatedBase).1 ⟨10, 25, 0, 0⟩ hm

/-- C6: in both line-tax computations amount = quantity * rate, each tax
component is (amount - discount) * percentage / 100, taxtotal is the sum
of the three components, and total = amount - discount + taxtotal; the
equations hold for every discount, so a negative taxable base is never
clamped. -/
theorem C6_line_formulas (ir tr : ℚ) (s pos : ℤ) (quantity rate discount : ℚ) :
    (getInvoiceItemTaxDetails (some (ir, tr)) (some s) (some pos) quantity discount).amount
      = quantity * ir ∧
    (getInvoiceItemTaxDetails (some (ir, tr)) (some s) (some pos) quantity discount).cgst
      = (quantity * ir - discount) * ((taxSplit s pos tr).1 / 100) ∧
    (getInvoiceItemTaxDetails (some (ir, tr)) (some s) (some pos) quantity discount).sgst
      = (quantity * ir - discount) * ((taxSplit s pos tr).2.1 / 100) ∧
    (getInvoiceItemTaxDetails (some (ir, tr)) (some s) (some pos) quantity discount).igst
      = (quantity * ir - discount) * ((taxSplit s pos tr).2.2 / 100) ∧
    (getInvoiceItemTaxDetails (some (ir, tr)) (some s) (some pos) quantity discount).taxtotal
      = (getInvoiceItemTaxDetails (some (ir, tr)) (some s) (some pos) quantity discount).cgst
        + (getInvoiceItemTaxDetails (some (ir, tr)) (some s) (some pos) quantity discount).sgst
        + (getInvoiceItemTaxDetails (some (ir, tr)) (some s) (some pos) quantity discount).igst ∧
    (getInvoiceItemTaxDetails (some (ir, tr)) (some s) (some pos) quantity discount).total
      = (getInvoiceItemTaxDetails (some (ir, tr)) (some s) (some pos) quantity discount).amount
        - discount
        + (getInvoiceItemTaxDetails (some (ir, tr)) (some s) (some pos) quantity discount).taxtotal ∧
    (saveInvoiceItemCalc s pos tr quantity rate discount).amount = quantity * rate ∧
    (saveInvoiceItemCalc s pos tr quantity rate discount).taxtotal
      = (quantity * rate - discount) * ((taxSplit s pos tr).1 / 100)
        + (quantity * rate - discount) * ((taxSplit s pos tr).2.1 / 100)
        + (quantity * rate - discount) * ((taxSplit s pos tr).2.2 / 100) ∧
    (saveInvoiceItemCalc s pos tr quantity rate discount).total
      = (saveInvoiceItemCalc s pos tr quantity rate discount).amount - discount
        + (saveInvoiceItemCalc s pos tr quantity rate discount).taxtotal := by
  refine ⟨rfl, rfl, rfl, rfl, rfl, rfl, rfl, rfl, rfl⟩

/-- C7: for every nonnegative tax rate the three split percentages sum to
the tax rate, and for fixed quantity, rate and discount the taxtotal and
the line total of SaveInvoiceItem do not depend on which regime the pair
of state ids selects. -/
theorem C7_split_sum (s pos s2 pos2 : ℤ) (taxrate quantity rate discount : ℚ)
    (h : 0 ≤ taxrate) :
    (taxSplit s pos taxrate).1 + (taxSplit s pos taxrate).2.1
        + (taxSplit s pos taxrate).2.2 = taxrate ∧
    (saveInvoiceItemCalc s pos taxrate quantity rate discount).taxtotal
      = (saveInvoiceItemCalc s2 pos2 taxrate quantity rate discount).taxtotal ∧
    (saveInvoiceItemCalc s pos taxrate quantity rate discount).total
      = (saveInvoiceItemCalc s2 pos2 taxrate quantity rate discount).total := by
  by_cases h1 : s = pos <;> by_cases h2 : s2 = pos2 <;>
    refine ⟨?_, ?_, ?_⟩ <;>
    simp [saveInvoiceItemCalc, taxSplit, h1, h2] <;> ring

/-- Witness for C7 at s = pos = 7, s2 = 7, pos2 = 12, taxrate 18,
quantity 2, rate 100, discount 0. -/
theorem C7_split_sum_witness :
    (taxSplit 7 7 18).1 + (taxSplit 7 7 18).2.1 + (taxSplit 7 7 18).2.2 = 18 ∧
    (saveInvoiceItemCalc 7 7 18 2 100 0).taxtotal
      = (saveInvoiceItemCalc 7 12 18 2 100 0).taxtotal ∧
    (saveInvoiceItemCalc 7 7 18 2 100 0).total
      = (saveInvoiceItemCalc 7 12 18 2 100 0).total :=
  C7_split_sum 7 7 7 12 18 2 100 0 (by norm_num)

/-! ### Lemmas on adjustment sums and serials -/

theorem sumAdj_nil (j : ℕ) : sumAdj [] j = 0 := rfl

theorem sumAdj_cons (a : AdjRow) (l : List AdjRow) (j : ℕ) :
    sumAdj (a :: l) j = (if a.invid = j then a.adjustamt else 0) + sumAdj l j := by
  by_cases h : a.invid = j <;> simp [sumAdj, List.filter_cons, h]

theorem sumAdj_append (l1 l2 : List AdjRow) (j : ℕ) :
    sumAdj (l1 ++ l2) j = sumAdj l1 j + sumAdj l2 j := by
  simp [sumAdj, List.filter_append]

theorem sumAdj_erase_payment (adjs : List AdjRow) (I P : ℕ)
    (h : ∀ a ∈ adjs, a.invid = I → a.payid = P) :
    sumAdj (adjs.filter (fun a => ¬ a.payid = P)) I = 0 := by
  induction adjs with
  | nil => simp [sumAdj]
  | cons a l ih =>
    have hl := ih (fun b hb => h b (List.mem_cons_of_mem _ hb))
    by_cases hp : a.payid = P
    · rw [List.filter_cons_of_neg (by simp [hp])]
      exact hl
    · rw [List.filter_cons_of_pos (by simp [hp]), sumAdj_cons,
        if_neg (fun hI => hp (h a (List.mem_cons_self a l) hI)), hl, zero_add]

theorem mem_le_foldr_max (l : List ℕ) : ∀ e ∈ l, e ≤ l.foldr max 0 := by
  induction l with
  | nil => intro e h; simp at h
  | cons a l ih =>
    intro e h
    rcases List.mem_cons.1 h with rfl | h1
    · exact le_max_left _ _
    · exact le_trans (ih e h1) (le_max_right _ _)

theorem invoiceTaxInsert_sr_getElem (i : ℕ) (rows : List TaxGroupRow) :
    ∀ (next k : ℕ), k < rows.length →
      ((invoiceTaxInsert i next rows).map (fun t => t.sr))[k]? = some (next + k) := by
  induction rows with
  | nil => intro next k hk; simp at hk
  | cons r rs ih =>
    intro next k hk
    cases k with
    | zero => simp [invoiceTaxInsert]
    | succ k =>
      have hrec := ih (next + 1) k (by simpa using hk)
      simp only [invoiceTaxInsert, List.map_cons, List.getElem?_cons_succ, hrec]
      congr 1
      omega

theorem invoiceTaxInsert_sr_ge (i : ℕ) (rows : List TaxGroupRow) :
    ∀ next, ∀ s ∈ (invoiceTaxInsert i next rows).map (fun t => t.sr), next ≤ s := by
  induction rows with
  | nil => intro next s hs; simp [invoiceTaxInsert] at hs
  | cons r rs ih =>
    intro next s hs
    simp only [invoiceTaxInsert, List.map_cons, List.mem_cons] at hs
    rcases hs with rfl | hs
    · exact le_refl _
    · exact le_trans (Nat.le_succ _) (ih (next + 1) s hs)

theorem invoiceTaxInsert_sr_nodup (i : ℕ) (rows : List TaxGroupRow) :
    ∀ next, ((invoiceTaxInsert i next rows).map (fun t => t.sr)).Nodup := by
  induction rows with
  | nil => intro next; simp [invoiceTaxInsert]
  | cons r rs ih =>
    intro next
    simp only [invoiceTaxInsert, List.map_cons, List.nodup_cons]
    refine ⟨fun hc => ?_, ih (next + 1)⟩
    have := invoiceTaxInsert_sr_ge i rs (next + 1) next hc
    omega

/-- C4: a freshly inserted invoice starts with amtdue = total (the INSERT
reuses the total parameter for amtdue); the ledger invariant amtdue =
total - SUM(adjustamt) is preserved by invoice creation (when the new id
has no stale adjustment rows) and by every SaveAdjustment; and the
adjusted invoice amtdue is recomputed by full resummation — it equals
total minus the whole new adjustment sum with no reference to the previous
amtdue value. -/
theorem C4_amount_due (db : DBState) (i p newId : ℕ) (amt total : ℚ) :
    ((saveInvoiceDet db none newId total).invoices).getLast? = some ⟨newId, total, total⟩ ∧
    (sumAdj db.adjustments newId = 0 → dueInvariant db →
      dueInvariant (saveInvoiceDet db none newId total)) ∧
    (dueInvariant db → dueInvariant (saveAdjustment db i p amt)) ∧
    (∀ inv ∈ (saveAdjustment db i p amt).invoices, inv.invid = i →
      inv.amtdue = inv.total - sumAdj (saveAdjustment db i p amt).adjustments i) := by
  have e1 : (saveInvoiceDet db none newId total).invoices
      = db.invoices ++ [⟨newId, total, total⟩] := rfl
  have e2 : (saveAdjustment db i p amt).invoices
      = db.invoices.map (fun inv => if inv.invid = i then
          { inv with amtdue := inv.total - sumAdj (db.adjustments ++ [⟨i, p, amt⟩]) i }
        else inv) := rfl
  refine ⟨?_, ?_, ?_, ?_⟩
  · rw [e1]
    simp
  · intro h0 hinv inv hmem
    rw [e1] at hmem
    show inv.amtdue = inv.total - sumAdj db.adjustments inv.invid
    rcases List.mem_append.1 hmem with hold | hnew
    · exact hinv inv hold
    · have hin : inv = ⟨newId, total, total⟩ := by simpa using hnew
      subst hin
      simp [h0]
  · intro hinv inv hmem
    rw [e2] at hmem
    obtain ⟨orig, ho, rfl⟩ := List.mem_map.1 hmem
    by_cases horig : orig.invid = i
    · rw [if_pos horig]
      show orig.total - sumAdj (db.adjustments ++ [⟨i, p, amt⟩]) i
        = orig.total - sumAdj (db.adjustments ++ [⟨i, p, amt⟩]) orig.invid
      rw [horig]
    · rw [if_neg horig]
      show orig.amtdue = orig.total - sumAdj (db.adjustments ++ [⟨i, p, amt⟩]) orig.invid
      rw [sumAdj_append, sumAdj_cons, sumAdj_nil,
        if_neg (fun hc => horig hc.symm)]
      simpa using hinv orig ho
  · intro inv hmem hi
    rw [e2] at hmem
    obtain ⟨orig, ho, rfl⟩ := List.mem_map.1 hmem
    by_cases horig : orig.invid = i
    · rw [if_pos horig]
      rfl
    · rw [if_neg horig] at hi
      exact absurd hi horig

/-- Witness for C4 on the empty database: creating invoice 7 with total 50
appends the row (7, 50, 50), and the invariant holds after the creation
and after an adjustment of 20 on invoice 2. -/
theorem C4_amount_due_witness :
    ((saveInvoiceDet dbEmpty none 7 50).invoices).getLast? = some ⟨7, 50, 50⟩ ∧
    dueInvariant (saveInvoiceDet dbEmpty none 7 50) ∧
    dueInvariant (saveAdjustment dbEmpty 2 3 20) := by
  obtain ⟨h1, h2, h3, _⟩ := C4_amount_due dbEmpty 2 3 7 20 50
  refine ⟨h1, h2 (by simp [dbEmpty, sumAdj]) ?_, h3 ?_⟩ <;>
    · intro inv hmem
      simp [dbEmpty] at hmem

/-- C9: DeleteAdjustment by itself removes the adjustment rows of the
payment and leaves the Invoice, InvoiceItem and InvoiceTax tables — in
particular every amtdue — untouched; if every adjustment of invoice I
belonged to payment P, then re-running the amount-due recomputation after
the delete restores amtdue to total for invoice I. -/
theorem C9_delete_then_recompute (db : DBState) (I P : ℕ)
    (h : ∀ a ∈ db.adjustments, a.invid = I → a.payid = P) :
    (deleteAdjustment db P).invoices = db.invoices ∧
    (deleteAdjustment db P).items = db.items ∧
    (deleteAdjustment db P).taxes = db.taxes ∧
    ∀ inv ∈ (recomputeDue (deleteAdjustment db P) I).invoices,
      inv.invid = I → inv.amtdue = inv.total := by
  refine ⟨rfl, rfl, rfl, ?_⟩
  intro inv hmem hI
  have e : (recomputeDue (deleteAdjustment db P) I).invoices
      = db.invoices.map (fun inv => if inv.invid = I then
          { inv with amtdue := inv.total
              - sumAdj (db.adjustments.filter (fun a => ¬ a.payid = P)) I }
        else inv) := rfl
  rw [e] at hmem
  obtain ⟨orig, ho, rfl⟩ := List.mem_map.1 hmem
  by_cases horig : orig.invid = I
  · rw [if_pos horig]
    show orig.total - sumAdj (db.adjustments.filter (fun a => ¬ a.payid = P)) I
      = orig.total
    rw [sumAdj_erase_payment db.adjustments I P h, sub_zero]
  · rw [if_neg horig] at hI
    exact absurd hI horig

/-- Witness for C9 on the one-payment database: deleting payment 42 leaves
the invoice row (with its stale amtdue 680) in place, and the recomputation
then sets amtdue back to the total 1180. -/
theorem C9_delete_then_recompute_witness :
    (deleteAdjustment dbOnePayment 42).invoices = dbOnePayment.invoices ∧
    (⟨1, 1180, 1180⟩ : InvoiceRow) ∈
      (recomputeDue (deleteAdjustment dbOnePayment 42) 1).invoices ∧
    (InvoiceRow.mk 1 1180 1180).amtdue = (InvoiceRow.mk 1 1180 1180).total := by
  obtain ⟨h1, _, _, h4⟩ := C9_delete_then_recompute dbOnePayment 1 42 (by decide)
  have hm : (⟨1, 1180, 1180⟩ : InvoiceRow) ∈
      (recomputeDue (deleteAdjustment dbOnePayment 42) 1).invoices := by
    norm_num [recomputeDue, deleteAdjustment, dbOnePayment, sumAdj]
  exact ⟨h1, hm, h4 ⟨1, 1180, 1180⟩ hm rfl⟩

/-- C10: when SaveInvoiceDet is called with a positive invid the update
branch runs and afterwards no InvoiceItem or InvoiceTax row of that invoice
remains while every row of other invoices survives; with invid absent or 0
the insert branch runs and the InvoiceItem and InvoiceTax tables are
unchanged. -/
theorem C10_update_deletes_children (db : DBState) (i newId : ℕ) (total : ℚ)
    (h : 0 < i) :
    (∀ it ∈ (saveInvoiceDet db (some i) newId total).items, ¬ it.invoiceid = i) ∧
    (∀ it ∈ db.items, ¬ it.invoiceid = i →
      it ∈ (saveInvoiceDet db (some i) newId total).items) ∧
    (∀ t ∈ (saveInvoiceDet db (some i) newId total).taxes, ¬ t.invid = i) ∧
    (∀ t ∈ db.taxes, ¬ t.invid = i →
      t ∈ (saveInvoiceDet db (some i) newId total).taxes) ∧
    (saveInvoiceDet db none newId total).items = db.items ∧
    (saveInvoiceDet db none newId total).taxes = db.taxes ∧
    (saveInvoiceDet db (some 0) newId total).items = db.items ∧
    (saveInvoiceDet db (some 0) newId total).taxes = db.taxes := by
  have e1 : (saveInvoiceDet db (some i) newId total).items
      = db.items.filter (fun it => ¬ it.invoiceid = i) := by
    simp [saveInvoiceDet, h]
  have e2 : (saveInvoiceDet db (some i) newId total).taxes
      = db.taxes.filter (fun t => ¬ t.invid = i) := by
    simp [saveInvoiceDet, h]
  refine ⟨?_, ?_, ?_, ?_, rfl, rfl, rfl, rfl⟩
  · intro it hit
    rw [e1] at hit
    simpa using (List.mem_filter.1 hit).2
  · intro it hit hni
    rw [e1]
    exact List.mem_filter.2 ⟨hit, by simpa using hni⟩
  · intro t ht
    rw [e2] at ht
    simpa using (List.mem_filter.1 ht).2
  · intro t ht hni
    rw [e2]
    exact List.mem_filter.2 ⟨ht, by simpa using hni⟩

/-- Witness for C10 on the two-invoice database: updating invoice 1 keeps
the line item of invoice 2 and deletes everything of invoice 1, while the
insert branch deletes nothing. -/
theorem C10_update_deletes_children_witness :
    (ItemRow.mk 2 6 50 0 0 0 18) ∈ (saveInvoiceDet dbTwoInvoices (some 1) 7 100).items ∧
    (saveInvoiceDet dbTwoInvoices none 7 100).items = dbTwoInvoices.items ∧
    (saveInvoiceDet dbTwoInvoices (some 0) 7 100).taxes = dbTwoInvoices.taxes := by
  obtain ⟨h1, h2, h3, h4, h5, h6, h7, h8⟩ :=
    C10_update_deletes_children dbTwoInvoices 1 7 100 (by norm_num)
  exact ⟨h2 _ (by simp [dbTwoInvoices]) (by norm_num), h5, h8⟩

/-- C8: each aggregation run assigns serials starting at
COALESCE(MAX(sr), 0) + 1 for the invoice (1 when no rows exist) and
increasing by 1 per emitted row; the new serials are pairwise distinct and
none of them occurs among the existing serials of that invoice. -/
theorem C8_serial_assignment (db : DBState) (i : ℕ) (rows : List TaxGroupRow) :
    nextSerial db i = (existingSerials db i).foldr max 0 + 1 ∧
    (existingSerials db i = [] → nextSerial db i = 1) ∧
    (∀ k, k < rows.length →
      ((invoiceTaxInsert i (nextSerial db i) rows).map (fun t => t.sr))[k]?
        = some (nextSerial db i + k)) ∧
    ((invoiceTaxInsert i (nextSerial db i) rows).map (fun t => t.sr)).Nodup ∧
    (∀ s ∈ (invoiceTaxInsert i (nextSerial db i) rows).map (fun t => t.sr),
      s ∉ existingSerials db i) := by
  refine ⟨rfl, ?_, ?_, invoiceTaxInsert_sr_nodup i rows _, ?_⟩
  · intro h
    rw [nextSerial, h]
    rfl
  · intro k hk
    exact invoiceTaxInsert_sr_getElem i rows (nextSerial db i) k hk
  · intro s hs hmem
    have h1 := invoiceTaxInsert_sr_ge i rows (nextSerial db i) s hs
    have h2 := mem_le_foldr_max (existingSerials db i) s hmem
    rw [nextSerial] at h1
    omega

/-- Witness for C8 on the database whose invoice 1 already has serials 1
and 2: a run emitting one row assigns it serial 3, which is new. -/
theorem C8_serial_assignment_witness :
    nextSerial dbTwoSerials 1 = 3 ∧
    ((invoiceTaxInsert 1 (nextSerial dbTwoSerials 1) [⟨5, 5, 0, 0⟩]).map
      (fun t => t.sr))[0]? = some 3 ∧
    (3 : ℕ) ∉ existingSerials dbTwoSerials 1 := by
  obtain ⟨h1, _, h3, _, h5⟩ := C8_serial_assignment dbTwoSerials 1 [⟨5, 5, 0, 0⟩]
  have hnext : nextSerial dbTwoSerials 1 = 3 := by decide
  refine ⟨hnext, ?_, ?_⟩
  · have := h3 0 (by norm_num)
    rw [hnext] at this
    simpa using this
  · have hm : (3 : ℕ) ∈ (invoiceTaxInsert 1 (nextSerial dbTwoSerials 1)
        [(⟨5, 5, 0, 0⟩ : TaxGroupRow)]).map (fun t => t.sr) := by
      rw [hnext]
      simp [invoiceTaxInsert]
    exact h5 3 hm

end InvoiceEngine
